import Mathlib

/-!
Verification development for the scnlib scanning engine.

The definitions below are shallow embeddings of the C++ sources:
- `include/scn/detail/range.h` (the `range_wrapper` cursor),
- `include/scn/detail/scan.h` (`getline`, `ignore_until`, `scan_list`,
  `scan_list_until`, `scan_default`),
- `src/locale.cpp` (numeric failure classification, locale classification),
- `include/scn/detail/unicode/common.h` (code point predicates).

Machine integers are modelled as `Nat`/`Int`; iterators as integer offsets
from the start of the underlying source; fallible operations return
`Except` or pair an `Error` with the resulting state. Collaborators that
are not part of the sources (the low-level readers `read_char`,
`read_until_space*`, `vscan` and the parse contexts) are modelled from the
specification; each such definition carries a doc comment starting with
`Modelled from the spec:`.
-/

set_option autoImplicit false

namespace ScnSpec

/-- Error codes of `scn::error` (`result.h`), as used by the embedded
sources. `good` is the distinguished no-error state. -/
inductive ErrorCode where
  | good
  | end_of_range
  | invalid_format_string
  | invalid_scanned_value
  | value_out_of_range
  | invalid_operation
  | invalid_encoding
  | unrecoverable_source_error
  | unrecoverable_internal_error
  | exceptions_required
  deriving DecidableEq, Repr

/-- `scn::error`: an error code plus a human-readable message. -/
structure Error where
  code : ErrorCode
  msg : String
  deriving DecidableEq, Repr

/-- The default-constructed, falsy-free `error`: no error occurred. -/
def Error.good : Error := ⟨ErrorCode.good, ""⟩

/-! ### Unicode code points (`unicode/common.h`) -/

/-- `lead_surrogate_min` from `unicode/common.h`. -/
def lead_surrogate_min : Nat := 0xd800

/-- `trail_surrogate_max` from `unicode/common.h`. -/
def trail_surrogate_max : Nat := 0xdfff

/-- `code_point_max` from `unicode/common.h`. -/
def code_point_max : Nat := 0x10ffff

/-- `is_surrogate` from `unicode/common.h`: the code point, viewed as a
`uint32_t`, lies in the combined lead/trail surrogate range. -/
def is_surrogate (cp : Nat) : Bool :=
  decide (lead_surrogate_min ≤ cp) && decide (cp ≤ trail_surrogate_max)

/-- `detail::is_code_point_valid` from `unicode/common.h`. -/
def is_code_point_valid (cp : Nat) : Bool :=
  decide (cp ≤ code_point_max) && !is_surrogate cp

/-- `is_valid_code_point` from `unicode/common.h`; delegates to
`detail::is_code_point_valid`. -/
def is_valid_code_point (cp : Nat) : Bool :=
  is_code_point_valid cp

/-- `is_ascii_code_point` from `unicode/common.h`. -/
def is_ascii_code_point (cp : Nat) : Bool :=
  decide (cp ≤ 0x7f)

/-! ### The cursor over an in-memory range (`range.h`, `range_wrapper`)

`listWrapper` embeds `range_wrapper<R>` for a plain in-memory range:
`src` is the underlying range, `m_begin` is the current position as an
offset from `ranges::begin` of the underlying range (the sources store an
iterator; an offset is the faithful relocation-safe reading, cf. the
copy/move constructors which recompute it as `ranges::distance`), and
`m_read` is the consumed-count-since-checkpoint. -/

structure listWrapper (α : Type) where
  src : List α
  m_begin : Nat
  m_read : Nat
  deriving DecidableEq, Repr

/-- `range_wrapper::advance(n)` for a non-caching range: bump `m_read`,
then move the position forward. -/
def listWrapper.advance {α : Type} (r : listWrapper α) (n : Nat) : listWrapper α :=
  ⟨r.src, r.m_begin + n, r.m_read + n⟩

/-- `range_wrapper::set_rollback_point()`: zero the consumed count. -/
def listWrapper.set_rollback_point {α : Type} (r : listWrapper α) : listWrapper α :=
  ⟨r.src, r.m_begin, 0⟩

/-- The remaining characters `[begin, end)` visible through the cursor. -/
def listWrapper.remaining {α : Type} (r : listWrapper α) : List α :=
  r.src.drop r.m_begin

/-- The loop body of `range_wrapper::reset_to_rollback_point()` on a plain
in-memory range: step the position back once per consumed unit, failing the
instant the decremented position equals the end sentinel (offset
`len`). Returns (error, final position, final consumed count). -/
def list_reset_loop (len : Nat) : Nat → Nat → Error × Nat × Nat
  | pos, 0 => (Error.good, pos, 0)
  | pos, Nat.succ k =>
    if pos - 1 = len then
      (⟨ErrorCode.unrecoverable_source_error, "Putback failed"⟩, pos - 1, Nat.succ k)
    else
      list_reset_loop len (pos - 1) k

/-- `range_wrapper::reset_to_rollback_point()` on a plain in-memory range. -/
def listWrapper.reset_to_rollback_point {α : Type} (r : listWrapper α) :
    Error × listWrapper α :=
  match list_reset_loop r.src.length r.m_begin r.m_read with
  | (e, p, k) => (e, ⟨r.src, p, k⟩)

/-- `range_wrapper::rewrap<R>()` for `R` representationally identical to the
wrapped type (`range.h`): recompute the offset `n = distance(begin_underlying,
begin)`, build a fresh wrapper over the same underlying range, `advance(n)`,
then `set_rollback_point()`. -/
def listWrapper.rewrap {α : Type} (r : listWrapper α) : listWrapper α :=
  ((⟨r.src, 0, 0⟩ : listWrapper α).advance r.m_begin).set_rollback_point

/-- The `range_wrapper` copy constructor (`range.h`): compute
`n = distance(o.begin_underlying(), o.m_begin)`, re-obtain the start of the
(copied) storage, walk it forward by `n`, and copy `m_read`. -/
def listWrapper.copy {α : Type} (r : listWrapper α) : listWrapper α :=
  ⟨r.src, 0 + r.m_begin, r.m_read⟩

/-! ### The cursor over a generic source (`range.h`, `range_wrapper`)

For claim C1 the interesting behaviour of `reset_to_rollback_point` lives
in the backward step of the source iterator, so the embedding is generic
over it: a `SourceIter` gives the offset of the end sentinel and the
semantics of `--it` as a function on offsets. -/

structure SourceIter where
  endPos : Int
  stepBack : Int → Int

/-- The cursor state of `range_wrapper`: current position (offset) and
consumed-count-since-checkpoint. -/
structure range_wrapper where
  m_begin : Int
  m_read : Nat
  deriving DecidableEq, Repr

/-- `range_wrapper::advance(n)`: bump `m_read`; unless the range is a
caching range, also move the position. -/
def range_wrapper.advance (caching : Bool) (r : range_wrapper) (n : Nat) :
    range_wrapper :=
  ⟨if caching then r.m_begin else r.m_begin + n, r.m_read + n⟩

/-- The loop of `range_wrapper::reset_to_rollback_point()`: while
`m_read ≠ 0`, decrement the position; if the decremented position equals
the end sentinel, fail with `unrecoverable_source_error` at once
(`m_read` still counting the unrecovered steps), else continue. -/
def reset_loop (it : SourceIter) : Int → Nat → Error × Int × Nat
  | pos, 0 => (Error.good, pos, 0)
  | pos, Nat.succ k =>
    if it.stepBack pos = it.endPos then
      (⟨ErrorCode.unrecoverable_source_error, "Putback failed"⟩,
        it.stepBack pos, Nat.succ k)
    else
      reset_loop it (it.stepBack pos) k

/-- `range_wrapper::reset_to_rollback_point()` over a generic source. -/
def range_wrapper.reset_to_rollback_point (it : SourceIter)
    (r : range_wrapper) : Error × range_wrapper :=
  match reset_loop it r.m_begin r.m_read with
  | (e, p, k) => (e, ⟨p, k⟩)

/-- `range_wrapper::set_rollback_point()`. -/
def range_wrapper.set_rollback_point (r : range_wrapper) : range_wrapper :=
  ⟨r.m_begin, 0⟩

/-- Modelled from the spec: the iterator of a source of length `len` that
can only step backward over positions still buffered (offsets at or above
`bufMin`, e.g. a limited putback buffer); a backward step that would leave
the buffered span lands on the end sentinel, which
`reset_to_rollback_point` then reports as `unrecoverable_source_error`.
With `bufMin = 0` this is the iterator of a plain in-memory range. -/
def putbackIter (len bufMin : Nat) : SourceIter :=
  ⟨(len : Int), fun p => if p - 1 < (bufMin : Int) then (len : Int) else p - 1⟩

/-! ### Numeric failure classification (`src/locale.cpp`) -/

/-- The overflow error built by `read_num_check_range`. -/
def overflow_error : Error :=
  ⟨ErrorCode.value_out_of_range, "Scanned number out of range: overflow"⟩

/-- The underflow error built by `read_num_check_range`. -/
def underflow_error : Error :=
  ⟨ErrorCode.value_out_of_range, "Scanned number out of range: underflow"⟩

/-- The generic invalid-value error built by `read_num_check_range`. -/
def invalid_num_error : Error :=
  ⟨ErrorCode.invalid_scanned_value, "Localized number read failed"⟩

/-- The representable range of an integral target type:
`std::numeric_limits<T>::min()/max()` as integers (for unsigned types the
minimum is zero). -/
structure int_limits where
  min : Int
  max : Int
  deriving DecidableEq, Repr

/-- `read_num_check_range` for integral `T` (`locale.cpp`): the saturated
value equal to the maximum classifies as overflow, equal to the minimum as
underflow, anything else as a generic invalid scanned value. -/
def read_num_check_range_int (lim : int_limits) (val : Int) : Error :=
  if val = lim.max then overflow_error
  else if val = lim.min then underflow_error
  else invalid_num_error

/-- `read_num_check_range` for floating-point `T` (`locale.cpp`), with the
value domain modelled by integers (the classification only compares for
equality against `max`, `-max` and the zero value): saturation at plus or
minus the maximum finite value `fmax` classifies as overflow, exact zero
as underflow, anything else as invalid. -/
def read_num_check_range_float (fmax : Int) (val : Int) : Error :=
  if val = fmax ∨ val = -fmax then overflow_error
  else if val = 0 then underflow_error
  else invalid_num_error

/-- The outcome of the locale-aware stream extraction `ss >> tmp` inside
`do_read_num`: the stream can go bad, fail with a saturated value left in
`tmp`, throw, or succeed with a value, an eof flag and a position. -/
inductive stream_state (α : Type) where
  | bad
  | failed (saturated : α)
  | thrown (msg : String)
  | extracted (value : α) (eof : Bool) (tellg : Int)
  deriving DecidableEq, Repr

/-- `do_read_num` (`locale.cpp`) over an abstract extraction outcome, with
the appropriate `read_num_check_range` overload passed as `check_range`:
a bad stream is an unrecoverable internal error, a failed extraction is
classified by `read_num_check_range` on the saturated value, a throw is an
invalid scanned value, and success returns the value and the consumed
length (`buf.size()` at eof, else `tellg`). -/
def do_read_num {α : Type} (check_range : α → Error) (bufSize : Nat)
    (st : stream_state α) : Except Error (α × Int) :=
  match st with
  | .bad => .error ⟨ErrorCode.unrecoverable_internal_error,
      "Localized stringstream is bad"⟩
  | .failed t => .error (check_range t)
  | .thrown m => .error ⟨ErrorCode.invalid_scanned_value, m⟩
  | .extracted v eof g => .ok (v, if eof then (bufSize : Int) else g)

/-! ### Locale classification over multi-byte spans (`src/locale.cpp`) -/

/-- The result of `std::codecvt<wchar_t, char, mbstate_t>::facet.in` when
asked to decode a narrow span into exactly one wide unit (the facet is an
external collaborator; its verdict is the input of the embedded code).
The wide unit is modelled as a `Nat`. -/
inductive codecvt_result where
  | conv_ok (w : Nat)
  | conv_incomplete
  | conv_error
  | conv_noconv
  deriving DecidableEq, Repr

/-- The single-unit `convert_to_wide_impl` (`locale.cpp`): any facet
verdict other than `ok` becomes an `invalid_encoding` error, otherwise the
decoded wide unit is returned. -/
def convert_to_wide_one (res : codecvt_result) : Except Error Nat :=
  match res with
  | .conv_ok w => .ok w
  | _ => .error ⟨ErrorCode.invalid_encoding, "Invalid encoding"⟩

/-- The span overloads of the classification predicates
(`do_is_space`/`do_is_digit`, the `SCN_DEFINE_CUSTOM_LOCALE_CTYPE`
instances and `is_blank` in `locale.cpp`), in their `sizeof(CharT) == 1`
branch; they all share this shape: decode the span to one wide unit via
the facet, and if decoding fails return `false`, else apply the wide
classification predicate `classify` (`std::isspace` etc.). -/
def do_is_ctype_span (facet_in : List Char → codecvt_result)
    (classify : Nat → Bool) (ch : List Char) : Bool :=
  match convert_to_wide_one (facet_in ch) with
  | .error _ => false
  | .ok w => classify w

/-! ### `scan_list` and `scan_list_until` (`scan.h`)

The per-element collaborators are not part of the sources and are passed
as parameters:
- `vscanOne s slot`: one `vscan(ctx, pctx, {args})` call against state
  `s` with the current content of the temporary slot `value`; it returns
  the error, the new state, and the new slot content. Modelled from the
  spec: the type-scanner capability consumes zero or more characters and
  reports success or failure.
- `rdChar`: modelled from the spec, `read_char` reads and consumes one
  character, failing with `end_of_range` on exhausted input.
- `putback s n`: modelled from the spec, `putback_n` steps the position
  back `n` characters.
- `isSpace`: the locale predicate `ctx.locale().is_space`. -/

/-- A bounded push-back container in the role of `Container`
(cf. `span_list_wrapper`): collected elements plus a fixed capacity
queried by `max_size()`. -/
structure Container (α : Type) where
  data : List α
  max_size : Nat
  deriving DecidableEq, Repr

/-- `Container::size()`. -/
def Container.size {α : Type} (c : Container α) : Nat := c.data.length

/-- `Container::push_back`. -/
def Container.push_back {α : Type} (c : Container α) (v : α) : Container α :=
  ⟨c.data ++ [v], c.max_size⟩

/-- The `while (true)` loop of `scan_list` (`scan.h`), with a fuel
argument bounding the iteration count (each iteration that continues has
pushed one element, so `max_size - size + 1` fuel is enough; exhausted
fuel replays the capacity exit). Break paths return `wrapped_error{}`
(no error) together with the container and the range state at the break:
capacity reached; `end_of_range` from `vscan`; and — when a separator is
configured — `end_of_range` from reading the separator or a
non-separator character after an element ("Unexpected character,
assuming end"). Other errors are returned as-is. -/
def scan_list_loop {σ α : Type} (vscanOne : σ → α → Error × σ × α)
    (rdChar : σ → Except Error (Char × σ)) (sep : Char) :
    Nat → Container α → σ → α → Error × Container α × σ
  | 0, c, s, _ => (Error.good, c, s)
  | fuel + 1, c, s, slot =>
    if c.size = c.max_size then (Error.good, c, s)
    else
      match vscanOne s slot with
      | (e, s1, slot1) =>
        if e.code ≠ ErrorCode.good then
          if e.code = ErrorCode.end_of_range then (Error.good, c, s1)
          else (e, c, s1)
        else
          let c1 := c.push_back slot1
          if sep ≠ Char.ofNat 0 then
            match rdChar s1 with
            | .error e2 =>
              if e2.code = ErrorCode.end_of_range then (Error.good, c1, s1)
              else (e2, c1, s1)
            | .ok (ch, s2) =>
              if ch = sep then
                scan_list_loop vscanOne rdChar sep fuel c1 s2 slot1
              else (Error.good, c1, s2)
          else scan_list_loop vscanOne rdChar sep fuel c1 s1 slot1

/-- `scan_list` (`scan.h`): run the loop from the caller's container and
wrapped range (the surrounding `wrap`/`wrap_result` plumbing is the
identity on this model). -/
def scan_list {σ α : Type} (vscanOne : σ → α → Error × σ × α)
    (rdChar : σ → Except Error (Char × σ)) (sep : Char)
    (c : Container α) (s : σ) (slot : α) : Error × Container α × σ :=
  scan_list_loop vscanOne rdChar sep (c.max_size - c.size + 1) c s slot

/-- The `while (true)` loop of `scan_list_until` (`scan.h`). After each
element one character is read; `until_` breaks the loop, a non-separator
(resp. non-whitespace when no separator is configured) breaks the loop,
otherwise a second character is read: `until_` breaks, anything else is
put back and the loop continues. The second read is not checked for
failure in the sources (`next.value()` on a failed `expected` is
unspecified); that unreachable-in-practice path is modelled as yielding
the NUL character with the state unchanged. -/
def scan_list_until_loop {σ α : Type} (vscanOne : σ → α → Error × σ × α)
    (rdChar : σ → Except Error (Char × σ)) (putback : σ → Nat → σ)
    (isSpace : Char → Bool) (until_ sep : Char) :
    Nat → Container α → σ → α → Error × Container α × σ
  | 0, c, s, _ => (Error.good, c, s)
  | fuel + 1, c, s, slot =>
    if c.size = c.max_size then (Error.good, c, s)
    else
      match vscanOne s slot with
      | (e, s1, slot1) =>
        if e.code ≠ ErrorCode.good then
          if e.code = ErrorCode.end_of_range then (Error.good, c, s1)
          else (e, c, s1)
        else
          let c1 := c.push_back slot1
          match rdChar s1 with
          | .error e2 =>
            if e2.code = ErrorCode.end_of_range then (Error.good, c1, s1)
            else (e2, c1, s1)
          | .ok (ch, s2) =>
            if ch = until_ then (Error.good, c1, s2)
            else
              if (if sep ≠ Char.ofNat 0 then ch ≠ sep else isSpace ch = false)
              then (Error.good, c1, s2)
              else
                match rdChar s2 with
                | .ok (ch2, s3) =>
                  if ch2 = until_ then (Error.good, c1, s3)
                  else
                    scan_list_until_loop vscanOne rdChar putback isSpace
                      until_ sep fuel c1 (putback s3 1) slot1
                | .error _ =>
                  if Char.ofNat 0 = until_ then (Error.good, c1, s2)
                  else
                    scan_list_until_loop vscanOne rdChar putback isSpace
                      until_ sep fuel c1 (putback s2 1) slot1

/-- `scan_list_until` (`scan.h`): run the loop from the caller's state. -/
def scan_list_until {σ α : Type} (vscanOne : σ → α → Error × σ × α)
    (rdChar : σ → Except Error (Char × σ)) (putback : σ → Nat → σ)
    (isSpace : Char → Bool) (until_ sep : Char)
    (c : Container α) (s : σ) (slot : α) : Error × Container α × σ :=
  scan_list_until_loop vscanOne rdChar putback isSpace until_ sep
    (c.max_size - c.size + 1) c s slot

/-! ### `getline` and `ignore_until` (`scan.h`)

The readers driving them are not part of the sources; they are modelled
from the spec over the list-backed cursor. -/

/-- The number of characters a `read_until_space`-family reader consumes
from the remaining input `rest`: everything before the first character
satisfying `pred`, plus — when `keep_final` is set and such a character
exists — that character itself. -/
def span_consume (pred : Char → Bool) (keep_final : Bool)
    (rest : List Char) : Nat :=
  let k := (rest.takeWhile (fun ch => !pred ch)).length
  if keep_final then (if k < rest.length then k + 1 else k) else k

/-- Modelled from the spec: `read_until_space_zero_copy` — on empty input
fail with `end_of_range`; on a contiguous range return the length of the
span up to (with `keep_final`, including) the first delimiter and advance
past it, the span being a window into the underlying buffer; on a
non-contiguous range return an empty span and leave the range
untouched. -/
def read_until_space_zero_copy (contiguous : Bool) (pred : Char → Bool)
    (keep_final : Bool) (r : listWrapper Char) :
    Except Error (Nat × listWrapper Char) :=
  if r.remaining = [] then .error ⟨ErrorCode.end_of_range, "EOF"⟩
  else if contiguous then
    let n := span_consume pred keep_final r.remaining
    .ok (n, r.advance n)
  else .ok (0, r)

/-- Modelled from the spec: `read_until_space` accumulating through an
output iterator — read characters one at a time into the output until the
delimiter (kept when `keep_final`) or the end of the input; exhausting the
input ends the accumulation without an error. -/
def read_until_space_copy (pred : Char → Bool) (keep_final : Bool)
    (r : listWrapper Char) : List Char × listWrapper Char :=
  let n := span_consume pred keep_final r.remaining
  (r.remaining.take n, r.advance n)

/-- A `basic_string_view` bound into an underlying buffer: a start offset
and a length. -/
structure sview where
  start : Nat
  len : Nat
  deriving DecidableEq, Repr

/-- The characters an `sview` denotes inside the buffer `src`. -/
def sview_content (src : List Char) (v : sview) : List Char :=
  (src.drop v.start).take v.len

/-- `getline_impl`, `basic_string_view` overload (`scan.h`): take the
zero-copy span (delimiter included), trim one trailing delimiter, and
bind the view over the underlying buffer at the pre-read position; when
the zero-copy span is empty (non-contiguous source) fail with
`invalid_operation`. -/
def getline_impl_sv (contiguous : Bool) (until_ : Char)
    (r : listWrapper Char) : Except Error (sview × listWrapper Char) :=
  match read_until_space_zero_copy contiguous (fun ch => decide (ch = until_))
      true r with
  | .error e => .error e
  | .ok (n, r1) =>
    if n ≠ 0 then
      let sp := r.remaining.take n
      let size := if sp.getLast? = some until_ then n - 1 else n
      .ok (⟨r.m_begin, size⟩, r1)
    else
      .error ⟨ErrorCode.invalid_operation,
        "Cannot getline a string_view from a non-contiguous range"⟩

/-- `getline_impl`, generic `String` overload (`scan.h`): if the
zero-copy span is nonempty, clear the string and copy the span into it,
trimming one trailing delimiter; otherwise accumulate character by
character into a temporary through `read_until_space`, pop one trailing
delimiter, and move the temporary into the target. -/
def getline_impl_str (contiguous : Bool) (until_ : Char)
    (r : listWrapper Char) : Except Error (List Char × listWrapper Char) :=
  match read_until_space_zero_copy contiguous (fun ch => decide (ch = until_))
      true r with
  | .error e => .error e
  | .ok (n, r1) =>
    if n ≠ 0 then
      let sp := r.remaining.take n
      let size := if sp.getLast? = some until_ then n - 1 else n
      .ok (sp.take size, r1)
    else
      match read_until_space_copy (fun ch => decide (ch = until_)) true r with
      | (tmp, r2) =>
        .ok (if tmp.getLast? = some until_ then tmp.dropLast else tmp, r2)

/-- Modelled from the spec: `read_until_space` through the discarding
`ignore_iterator`, with `keep_final_space = false` as `ignore_until_impl`
passes it — advance over characters until the delimiter, which is left
unconsumed; report `end_of_range` if the input is exhausted without
finding it. -/
def read_until_space_ignore (pred : Char → Bool) (r : listWrapper Char) :
    Error × listWrapper Char :=
  if r.remaining = [] then (⟨ErrorCode.end_of_range, "EOF"⟩, r)
  else
    let k := (r.remaining.takeWhile (fun ch => !pred ch)).length
    if k = r.remaining.length then
      (⟨ErrorCode.end_of_range, "EOF"⟩, r.advance k)
    else (Error.good, r.advance k)

/-- `ignore_until_impl` (`scan.h`). -/
def ignore_until_impl (until_ : Char) (r : listWrapper Char) :
    Error × listWrapper Char :=
  read_until_space_ignore (fun ch => decide (ch = until_)) r

/-- `ignore_until` (`scan.h`): run `ignore_until_impl`; only if it
FAILED (`if (!err)`), reset the cursor to the rollback point, and if the
reset itself fails report the reset error instead. On success the cursor
is returned as the impl left it — `set_rollback_point` is never called. -/
def ignore_until (until_ : Char) (r : listWrapper Char) :
    Error × listWrapper Char :=
  match ignore_until_impl until_ r with
  | (err, w) =>
    if err.code = ErrorCode.good then (err, w)
    else
      match w.reset_to_rollback_point with
      | (e, w1) => (if e.code = ErrorCode.good then err else e, w1)

/-- Modelled from the spec: `read_until_space_ranged` through the bounded
discarding iterator as `ignore_until_n_impl` uses it — discard until the
delimiter is found or `n` characters have been discarded, whichever
first; `end_of_range` only if the input is exhausted before either. -/
def ignore_until_n_impl (n : Nat) (until_ : Char) (r : listWrapper Char) :
    Error × listWrapper Char :=
  if r.remaining = [] then (⟨ErrorCode.end_of_range, "EOF"⟩, r)
  else
    let j := (r.remaining.takeWhile (fun ch => !decide (ch = until_))).length
    if j < r.remaining.length then (Error.good, r.advance (min j n))
    else if n ≤ r.remaining.length then (Error.good, r.advance n)
    else (⟨ErrorCode.end_of_range, "EOF"⟩, r.advance r.remaining.length)

/-- `ignore_until_n` (`scan.h`): same error plumbing as `ignore_until`. -/
def ignore_until_n (n : Nat) (until_ : Char) (r : listWrapper Char) :
    Error × listWrapper Char :=
  match ignore_until_n_impl n until_ r with
  | (err, w) =>
    if err.code = ErrorCode.good then (err, w)
    else
      match w.reset_to_rollback_point with
      | (e, w1) => (if e.code = ErrorCode.good then err else e, w1)

/-! ### `scan` versus `scan_default` (`scan.h`)

`scan` runs `scan_boilerplate<basic_parse_context>` on a format string;
`scan_default` runs `scan_boilerplate<basic_empty_parse_context>` on the
argument count. Both share the same wrapping/reconstruction plumbing, so
the behavioural difference is confined to the `vscan` drive, modelled
below. The state `σ` carries the cursor and the argument storage: the
scanners in `args` are the very same functions on both sides, so equal
final states mean equal assigned argument values, equal errors, and
equal leftover input. -/

/-- Modelled from the spec: a format token as the external tokenizer
hands it to the engine — a placeholder consuming the next argument, a
whitespace directive, or a literal character to match. -/
inductive FToken where
  | placeholder
  | ws
  | lit (ch : Char)
  deriving DecidableEq, Repr

/-- Modelled from the spec: the `vscan` loop driven by
`basic_parse_context` over a tokenized format: a placeholder invokes the
next argument scanner and stops at the first failure, a whitespace token
skips whitespace, a literal token matches one input character. -/
def vscan_fmt {σ : Type} (skipWs : σ → σ) (matchLit : Char → σ → Error × σ) :
    List (σ → Error × σ) → List FToken → σ → Error × σ
  | _, [], s => (Error.good, s)
  | args, FToken.placeholder :: rest, s =>
    match args with
    | [] => (⟨ErrorCode.invalid_format_string, "Argument list exhausted"⟩, s)
    | f :: args1 =>
      match f s with
      | (e, s1) =>
        if e.code ≠ ErrorCode.good then (e, s1)
        else vscan_fmt skipWs matchLit args1 rest s1
  | args, FToken.ws :: rest, s => vscan_fmt skipWs matchLit args rest (skipWs s)
  | args, FToken.lit ch :: rest, s =>
    match matchLit ch s with
    | (e, s1) =>
      if e.code ≠ ErrorCode.good then (e, s1)
      else vscan_fmt skipWs matchLit args rest s1

/-- Modelled from the spec: the `vscan` loop driven by
`basic_empty_parse_context(sizeof...(Args))` as `scan_default` builds
it — scan each argument in order, skipping whitespace between
consecutive arguments, stopping at the first failure. -/
def vscan_default {σ : Type} (skipWs : σ → σ) :
    List (σ → Error × σ) → σ → Error × σ
  | [], s => (Error.good, s)
  | f :: rest, s =>
    match f s with
    | (e, s1) =>
      if e.code ≠ ErrorCode.good then (e, s1)
      else
        match rest with
        | [] => (Error.good, s1)
        | _ :: _ => vscan_default skipWs rest (skipWs s1)

/-- The implicit format `scan_default` stands for: one placeholder per
argument, space-separated (`"{} {} ... {}"`), tokenized. -/
def default_format : Nat → List FToken
  | 0 => []
  | 1 => [FToken.placeholder]
  | n + 2 => FToken.placeholder :: FToken.ws :: default_format (n + 1)

/-! ### Concrete collaborators for witnesses and counterexamples -/

/-- Modelled from the spec: `read_char` on a list-backed cursor — return
the character under the cursor and consume it, or `end_of_range`. -/
def demo_read_char (r : listWrapper Char) :
    Except Error (Char × listWrapper Char) :=
  match r.remaining with
  | [] => .error ⟨ErrorCode.end_of_range, "EOF"⟩
  | ch :: _ => .ok (ch, r.advance 1)

/-- Modelled from the spec: `putback_n` on a list-backed cursor — step
the position back `n` characters. -/
def demo_putback (r : listWrapper Char) (n : Nat) : listWrapper Char :=
  ⟨r.src, r.m_begin - n, r.m_read - n⟩

/-- A concrete single-digit value scanner in the role of the type-scanner
capability: consumes one decimal digit and yields its value, failing with
`invalid_scanned_value` on a non-digit and `end_of_range` on empty
input. -/
def demo_vscan (r : listWrapper Char) (v : Nat) :
    Error × listWrapper Char × Nat :=
  match r.remaining with
  | [] => (⟨ErrorCode.end_of_range, "EOF"⟩, r, v)
  | ch :: _ =>
    if ch.isDigit then (Error.good, r.advance 1, ch.toNat - 48)
    else (⟨ErrorCode.invalid_scanned_value, "invalid"⟩, r, v)

end ScnSpec

namespace ScnSpec

/-! ### Theorems -/

/-- `takeWhile` over a split list: keeps exactly the prefix `a` when every
element of `a` satisfies the predicate and `u` does not. -/
theorem takeWhile_append_of_pos {α : Type} (p : α → Bool) (a : List α)
    (u : α) (b : List α) (ha : ∀ x ∈ a, p x = true) (hu : p u = false) :
    (a ++ u :: b).takeWhile p = a := by
  induction a with
  | nil => simp [List.takeWhile_cons, hu]
  | cons x xs ih =>
    have hx : p x = true := ha x (by simp)
    simp only [List.cons_append, List.takeWhile_cons, hx, if_pos]
    rw [ih (fun y hy => ha y (by simp [hy]))]

/-- Taking one past the prefix `a` of a split list yields `a` plus the
splitting element. -/
theorem take_append_cons {α : Type} (a : List α) (u : α) (b : List α) :
    (a ++ u :: b).take (a.length + 1) = a ++ [u] := by
  induction a with
  | nil => simp
  | cons x xs ih => simp [ih]

/-- The delimiter-bounded `takeWhile` under a split hypothesis. -/
theorem takeWhile_until_eq {until_ : Char} {a b : List Char}
    (hna : until_ ∉ a) :
    ((a ++ until_ :: b).takeWhile fun ch => !decide (ch = until_)) = a := by
  refine takeWhile_append_of_pos _ a until_ b (fun x hx => ?_) (by simp)
  simp only [Bool.not_eq_true', decide_eq_false_iff_not]
  exact fun hcontra => hna (hcontra ▸ hx)

/-- `read_until_space_zero_copy` on a contiguous range whose remaining
input splits as `a ++ until_ :: b` with `until_ ∉ a`: consumes the prefix
together with the delimiter (`keep_final` is set by `getline`). -/
theorem zero_copy_found (until_ : Char) (r : listWrapper Char)
    (a b : List Char) (hsplit : r.remaining = a ++ until_ :: b)
    (hna : until_ ∉ a) :
    read_until_space_zero_copy true (fun ch => decide (ch = until_)) true r =
      .ok (a.length + 1, r.advance (a.length + 1)) := by
  have htw := takeWhile_until_eq (a := a) (b := b) hna
  have hspan : span_consume (fun ch => decide (ch = until_)) true
      r.remaining = a.length + 1 := by
    simp only [span_consume, hsplit, htw, if_pos]
    rw [if_pos (by simp)]
  unfold read_until_space_zero_copy
  rw [if_neg (by simp [hsplit]), if_pos rfl, hspan]

/-- Stepping a plain in-memory cursor back `k` times from `p0 + k`
restores `p0` without touching the end sentinel, as long as `p0 + k` does
not exceed the length of the source. -/
theorem list_reset_loop_ok (len p0 : Nat) :
    ∀ k : Nat, p0 + k ≤ len →
      list_reset_loop len (p0 + k) k = (Error.good, p0, 0) := by
  intro k
  induction k with
  | zero => intro _; rfl
  | succ n ih =>
    intro h
    simp only [list_reset_loop]
    rw [if_neg (by omega), show p0 + (n + 1) - 1 = p0 + n by omega]
    exact ih (by omega)

/-- `putbackIter` exposes offset `len` as the end sentinel. -/
theorem putbackIter_endPos (len bufMin : Nat) :
    (putbackIter len bufMin).endPos = (len : Int) := rfl

/-- The backward step of `putbackIter`, unfolded. -/
theorem putbackIter_stepBack (len bufMin : Nat) (p : Int) :
    (putbackIter len bufMin).stepBack p =
      if p - 1 < (bufMin : Int) then (len : Int) else p - 1 := rfl

/-- On a `putbackIter` source, stepping back `k` times from `p0 + k`
succeeds and lands on `p0`, provided the walked span stays inside the
buffered region and below the sentinel. -/
theorem reset_loop_putback_ok (len bufMin p0 : Nat) (hb : bufMin ≤ p0) :
    ∀ k : Nat, p0 + k ≤ len →
      reset_loop (putbackIter len bufMin) ((p0 : Int) + (k : Int)) k =
        (Error.good, (p0 : Int), 0) := by
  intro k
  induction k with
  | zero => intro _; simp [reset_loop]
  | succ n ih =>
    intro h
    simp only [reset_loop, putbackIter_stepBack, putbackIter_endPos]
    rw [if_neg (by push_cast; omega), if_neg (by push_cast; omega)]
    rw [show ((p0 : Int) + ((n + 1 : Nat) : Int) - 1) = (p0 : Int) + (n : Int) by
      push_cast; ring]
    exact ih (by omega)

/-- On a `putbackIter` source, stepping back `k ≥ 1` times starting from a
checkpoint in the unbuffered region (`p0 < bufMin`) fails with
`unrecoverable_source_error`: the walk down from `p0 + k` crosses
`bufMin`. -/
theorem reset_loop_putback_fail (len bufMin p0 : Nat) (hb : p0 < bufMin) :
    ∀ k : Nat, 1 ≤ k → p0 + k ≤ len →
      (reset_loop (putbackIter len bufMin) ((p0 : Int) + (k : Int)) k).1 =
        ⟨ErrorCode.unrecoverable_source_error, "Putback failed"⟩ := by
  intro k
  induction k with
  | zero => intro h1 _; omega
  | succ n ih =>
    intro _ h
    simp only [reset_loop, putbackIter_stepBack, putbackIter_endPos]
    by_cases hc : ((p0 : Int) + ((n + 1 : Nat) : Int) - 1) < (bufMin : Int)
    · rw [if_pos hc, if_pos rfl]
    · rw [if_neg hc, if_neg (by push_cast at hc ⊢; omega)]
      rw [show ((p0 : Int) + ((n + 1 : Nat) : Int) - 1) = (p0 : Int) + (n : Int) by
        push_cast; ring]
      exact ih (by push_cast at hc; omega) (by omega)

/-- C1: starting at a rollback point `p0` and advancing by `k`, the
consumed count is `k`; `reset_to_rollback_point` then (first conjunct)
restores exactly the pre-advance position with no error when the source
can step backward over the whole consumed span, and (second conjunct)
fails with `unrecoverable_source_error` when a backward step would pass
the end sentinel because part of the span is no longer buffered. -/
theorem scnC1 (len bufMin p0 k : Nat) :
    (bufMin ≤ p0 → p0 + k ≤ len →
      ((range_wrapper.mk p0 0).advance false k).reset_to_rollback_point
          (putbackIter len bufMin) =
        (Error.good, ⟨(p0 : Int), 0⟩))
    ∧ (p0 < bufMin → 1 ≤ k → p0 + k ≤ len →
      (((range_wrapper.mk p0 0).advance false k).reset_to_rollback_point
          (putbackIter len bufMin)).1 =
        ⟨ErrorCode.unrecoverable_source_error, "Putback failed"⟩) := by
  have h0 : (range_wrapper.mk (p0 : Int) 0).advance false k =
      ⟨(p0 : Int) + (k : Int), k⟩ := by
    simp [range_wrapper.advance]
  constructor
  · intro hb h
    rw [h0]
    simp only [range_wrapper.reset_to_rollback_point]
    rw [reset_loop_putback_ok len bufMin p0 hb k h]
  · intro hb hk h
    rw [h0]
    simp only [range_wrapper.reset_to_rollback_point]
    exact reset_loop_putback_fail len bufMin p0 hb k hk h

/-- Witness for C1: both conjuncts at concrete inputs. A source of length
10 with everything down to offset 1 buffered rolls a 3-step advance from
offset 2 back to 2; with the buffer floor at 5, a cursor checkpointed at
offset 3 and advanced 4 steps cannot roll back. -/
theorem scnC1_witness :
    ((range_wrapper.mk 2 0).advance false 3).reset_to_rollback_point
        (putbackIter 10 1) = (Error.good, ⟨(2 : Int), 0⟩)
    ∧ (((range_wrapper.mk 3 0).advance false 4).reset_to_rollback_point
        (putbackIter 10 5)).1 =
      ⟨ErrorCode.unrecoverable_source_error, "Putback failed"⟩ :=
  ⟨(scnC1 10 1 2 3).1 (by decide) (by decide),
   (scnC1 10 5 3 4).2 (by decide) (by decide) (by decide)⟩

/-- C10: `is_valid_code_point cp` holds exactly when `cp ≤ 0x10FFFF` and
`cp` is outside the surrogate range `0xD800..0xDFFF`; consequently every
ASCII code point (accepted by `is_ascii_code_point`) is valid. -/
theorem scnC10 (cp : Nat) :
    (is_valid_code_point cp = true ↔
      (cp ≤ 0x10ffff ∧ ¬(0xd800 ≤ cp ∧ cp ≤ 0xdfff)))
    ∧ (is_ascii_code_point cp = true → is_valid_code_point cp = true) := by
  constructor
  · simp only [is_valid_code_point, is_code_point_valid, is_surrogate,
      code_point_max, lead_surrogate_min, trail_surrogate_max,
      Bool.and_eq_true, Bool.not_eq_true', Bool.and_eq_false_iff,
      decide_eq_true_eq, decide_eq_false_iff_not]
    omega
  · intro h
    simp only [is_ascii_code_point, decide_eq_true_eq] at h
    simp [is_valid_code_point, is_code_point_valid, is_surrogate,
      code_point_max, lead_surrogate_min, trail_surrogate_max]
    omega

/-- Witness for C10 at the concrete ASCII code point `0x41`. -/
theorem scnC10_witness : is_valid_code_point 0x41 = true :=
  (scnC10 0x41).2 (by decide)

/-- C9: rewrapping to the same declared range type, like copying, preserves
the logical offset (distance from the underlying start) rather than a raw
position, so the rewrapped or copied cursor exposes exactly the same
remaining sequence as the original; rewrap additionally re-establishes the
rollback point while copy preserves the consumed count. -/
theorem scnC9 {α : Type} (r : listWrapper α) :
    r.rewrap.remaining = r.remaining
    ∧ r.copy.remaining = r.remaining
    ∧ r.rewrap.m_begin = r.m_begin
    ∧ r.copy.m_begin = r.m_begin
    ∧ r.rewrap.m_read = 0
    ∧ r.copy.m_read = r.m_read := by
  refine ⟨?_, ?_, ?_, ?_, rfl, rfl⟩ <;>
    simp [listWrapper.rewrap, listWrapper.copy, listWrapper.advance,
      listWrapper.set_rollback_point, listWrapper.remaining]

/-- C2: when the locale-aware stream extraction fails, `do_read_num`
classifies the error from the saturated value: for an integral target with
`min < max`, saturation at the maximum is overflow, at the minimum (zero
for unsigned types, whose `min` is zero) underflow, anything else a
generic invalid scanned value; for a floating-point target, saturation at
plus or minus the maximum finite value is overflow, exact zero underflow,
anything else invalid. -/
theorem scnC2 (lim : int_limits) (fmax v : Int) (bsz : Nat)
    (hlim : lim.min < lim.max) (hf : 0 < fmax) :
    (v = lim.max →
      do_read_num (read_num_check_range_int lim) bsz (.failed v) =
        .error overflow_error)
    ∧ (v = lim.min →
      do_read_num (read_num_check_range_int lim) bsz (.failed v) =
        .error underflow_error)
    ∧ (v ≠ lim.max → v ≠ lim.min →
      do_read_num (read_num_check_range_int lim) bsz (.failed v) =
        .error invalid_num_error)
    ∧ (v = fmax ∨ v = -fmax →
      do_read_num (read_num_check_range_float fmax) bsz (.failed v) =
        .error overflow_error)
    ∧ (v = 0 →
      do_read_num (read_num_check_range_float fmax) bsz (.failed v) =
        .error underflow_error)
    ∧ (v ≠ fmax → v ≠ -fmax → v ≠ 0 →
      do_read_num (read_num_check_range_float fmax) bsz (.failed v) =
        .error invalid_num_error) := by
  refine ⟨?_, ?_, ?_, ?_, ?_, ?_⟩
  · intro hv
    simp [do_read_num, read_num_check_range_int, hv]
  · intro hv
    simp only [do_read_num, read_num_check_range_int]
    rw [if_neg (by omega), if_pos hv]
  · intro h1 h2
    simp [do_read_num, read_num_check_range_int, h1, h2]
  · intro hv
    simp [do_read_num, read_num_check_range_float, hv]
  · intro hv
    simp only [do_read_num, read_num_check_range_float]
    rw [if_neg (by omega), if_pos hv]
  · intro h1 h2 h3
    simp only [do_read_num, read_num_check_range_float]
    rw [if_neg (by tauto), if_neg h3]

/-- C3: `scan_list` ends the loop with success, keeping the elements
already collected, in each of the claimed cases: the container is at
capacity (first conjunct, nothing consumed); `end_of_range` while
scanning a value (second conjunct, container unchanged); with a
separator configured, `end_of_range` while reading the separator (third
conjunct) or a non-separator character after an element (fourth
conjunct), both keeping the freshly pushed element. -/
theorem scnC3 {σ α : Type} (vscanOne : σ → α → Error × σ × α)
    (rdChar : σ → Except Error (Char × σ)) (sep : Char)
    (c : Container α) (s : σ) (slot : α) :
    (c.size = c.max_size →
      scan_list vscanOne rdChar sep c s slot = (Error.good, c, s))
    ∧ (∀ e s1 slot1, c.size ≠ c.max_size →
        vscanOne s slot = (e, s1, slot1) →
        e.code = ErrorCode.end_of_range →
        scan_list vscanOne rdChar sep c s slot = (Error.good, c, s1))
    ∧ (∀ s1 slot1 e2, c.size ≠ c.max_size →
        vscanOne s slot = (Error.good, s1, slot1) →
        sep ≠ Char.ofNat 0 → rdChar s1 = .error e2 →
        e2.code = ErrorCode.end_of_range →
        scan_list vscanOne rdChar sep c s slot =
          (Error.good, c.push_back slot1, s1))
    ∧ (∀ s1 slot1 ch s2, c.size ≠ c.max_size →
        vscanOne s slot = (Error.good, s1, slot1) →
        sep ≠ Char.ofNat 0 → rdChar s1 = .ok (ch, s2) → ch ≠ sep →
        scan_list vscanOne rdChar sep c s slot =
          (Error.good, c.push_back slot1, s2)) := by
  refine ⟨?_, ?_, ?_, ?_⟩
  · intro h
    simp only [scan_list, scan_list_loop]
    rw [if_pos h]
  · intro e s1 slot1 hne hv he
    simp only [scan_list, scan_list_loop]
    rw [if_neg hne, hv]
    simp [he]
  · intro s1 slot1 e2 hne hv hsep hr he
    simp only [scan_list, scan_list_loop]
    rw [if_neg hne, hv]
    simp [Error.good, if_pos hsep, hr, he]
  · intro s1 slot1 ch s2 hne hv hsep hr hch
    simp only [scan_list, scan_list_loop]
    rw [if_neg hne, hv]
    simp [Error.good, if_pos hsep, hr, hch]

/-- Witness for C3: the four exit cases at concrete inputs, over the
list-backed cursor with the single-digit value scanner. -/
theorem scnC3_witness :
    scan_list demo_vscan demo_read_char ','
        ⟨[5, 6], 2⟩ ⟨['1'], 0, 0⟩ 0 = (Error.good, ⟨[5, 6], 2⟩, ⟨['1'], 0, 0⟩)
    ∧ scan_list demo_vscan demo_read_char ','
        ⟨[], 3⟩ ⟨[], 0, 0⟩ 0 = (Error.good, ⟨[], 3⟩, ⟨[], 0, 0⟩)
    ∧ scan_list demo_vscan demo_read_char ','
        ⟨[], 3⟩ ⟨['1'], 0, 0⟩ 0 = (Error.good, ⟨[1], 3⟩, ⟨['1'], 1, 1⟩)
    ∧ scan_list demo_vscan demo_read_char ','
        ⟨[], 3⟩ ⟨['1', 'x'], 0, 0⟩ 0 =
      (Error.good, ⟨[1], 3⟩, ⟨['1', 'x'], 2, 2⟩) :=
  ⟨(scnC3 demo_vscan demo_read_char ',' ⟨[5, 6], 2⟩ ⟨['1'], 0, 0⟩ 0).1
      (by decide),
   (scnC3 demo_vscan demo_read_char ',' ⟨[], 3⟩ ⟨[], 0, 0⟩ 0).2.1
      ⟨ErrorCode.end_of_range, "EOF"⟩ ⟨[], 0, 0⟩ 0 (by decide) (by decide)
      rfl,
   (scnC3 demo_vscan demo_read_char ',' ⟨[], 3⟩ ⟨['1'], 0, 0⟩ 0).2.2.1
      ⟨['1'], 1, 1⟩ 1 ⟨ErrorCode.end_of_range, "EOF"⟩ (by decide) (by decide)
      (by decide) rfl rfl,
   (scnC3 demo_vscan demo_read_char ',' ⟨[], 3⟩ ⟨['1', 'x'], 0, 0⟩ 0).2.2.2
      ⟨['1', 'x'], 1, 1⟩ 1 'x' ⟨['1', 'x'], 2, 2⟩ (by decide) (by decide)
      (by decide) rfl (by decide)⟩

/-- Counterexample to C6 as stated: scanning `"1;"` with
`scan_list_until`, delimiter `';'` and no separator, into a 2-capacity
container stops successfully after the element `1` — but the `';'` has
been consumed by the `read_char` that detected it (final offset 2, with
no putback before the break), so the leftover input is empty and the
`until` character is not its first character, contrary to the claim. -/
theorem scnC6_counterexample :
    scan_list_until demo_vscan demo_read_char demo_putback (fun _ => false)
        ';' (Char.ofNat 0) ⟨[], 2⟩ ⟨['1', ';'], 0, 0⟩ 0 =
      (Error.good, ⟨[1], 2⟩, ⟨['1', ';'], 2, 2⟩)
    ∧ (⟨['1', ';'], 2, 2⟩ : listWrapper Char).remaining = []
    ∧ ¬((⟨['1', ';'], 2, 2⟩ : listWrapper Char).remaining.head? = some ';') :=
  ⟨by decide, by decide, by decide⟩

/-- C6 (amended): after each scanned element `scan_list_until` reads one
character, consuming it; if that character matches `until_`, the loop
stops successfully with the element kept, but the `until_` character has
been consumed — the leftover input is the state after the read, so
`until_` does not remain the first character of the leftover (a putback
happens only for the second, post-separator lookahead character when it
is not `until_`). -/
theorem scnC6 {σ α : Type} (vscanOne : σ → α → Error × σ × α)
    (rdChar : σ → Except Error (Char × σ)) (putback : σ → Nat → σ)
    (isSpace : Char → Bool) (until_ sep : Char)
    (c : Container α) (s : σ) (slot : α) (s1 : σ) (slot1 : α) (s2 : σ)
    (hc : c.size ≠ c.max_size)
    (hv : vscanOne s slot = (Error.good, s1, slot1))
    (hr : rdChar s1 = .ok (until_, s2)) :
    scan_list_until vscanOne rdChar putback isSpace until_ sep c s slot =
      (Error.good, c.push_back slot1, s2) := by
  simp only [scan_list_until, scan_list_until_loop]
  rw [if_neg hc, hv]
  simp [Error.good, hr]

/-- Witness for C6 (amended): scanning `"2;x"` with delimiter `';'` stops
after the element `2` with the `';'` consumed (final offset 2). -/
theorem scnC6_witness :
    scan_list_until demo_vscan demo_read_char demo_putback (fun _ => false)
        ';' (Char.ofNat 0) ⟨[], 2⟩ ⟨['2', ';', 'x'], 0, 0⟩ 0 =
      (Error.good, ⟨[2], 2⟩, ⟨['2', ';', 'x'], 2, 2⟩) :=
  scnC6 demo_vscan demo_read_char demo_putback (fun _ => false) ';'
    (Char.ofNat 0) ⟨[], 2⟩ ⟨['2', ';', 'x'], 0, 0⟩ 0
    ⟨['2', ';', 'x'], 1, 1⟩ 2 ⟨['2', ';', 'x'], 2, 2⟩
    (by decide) (by decide) rfl

/-- Counterexample to C7 as stated: on the span `['x']` whose decoding
fails (the facet reports a conversion error, so `convert_to_wide_one`
yields `invalid_encoding`), the classification predicate does not fail
with an `invalid_encoding` error — its `Bool` interface returns `false`,
silently reporting that the character does not match the class, even
though the wide classifier would accept every unit. -/
theorem scnC7_counterexample :
    convert_to_wide_one ((fun _ => codecvt_result.conv_error) ['x']) =
      .error ⟨ErrorCode.invalid_encoding, "Invalid encoding"⟩
    ∧ do_is_ctype_span (fun _ => codecvt_result.conv_error)
        (fun _ => true) ['x'] = false :=
  ⟨rfl, rfl⟩

/-- C7 (amended): when decoding the narrow span fails, the decoder itself
produces an `invalid_encoding` error, but the span classification
predicates swallow it and return `false` — the character is reported as
not matching the class, whatever the wide classifier would say; the
`bool` interface of the predicates cannot propagate the error. -/
theorem scnC7 (facet_in : List Char → codecvt_result)
    (classify : Nat → Bool) (ch : List Char)
    (hfail : ∀ w, facet_in ch ≠ codecvt_result.conv_ok w) :
    do_is_ctype_span facet_in classify ch = false
    ∧ convert_to_wide_one (facet_in ch) =
        .error ⟨ErrorCode.invalid_encoding, "Invalid encoding"⟩ := by
  rcases hres : facet_in ch with w | _ | _ | _
  · exact absurd hres (hfail w)
  all_goals simp [do_is_ctype_span, convert_to_wide_one, hres]

/-- Witness for C7 (amended) at a facet that reports an incomplete
conversion on the span `['y']`. -/
theorem scnC7_witness :
    do_is_ctype_span (fun _ => codecvt_result.conv_incomplete)
        (fun _ => true) ['y'] = false
    ∧ convert_to_wide_one
        ((fun _ => codecvt_result.conv_incomplete) ['y']) =
      .error ⟨ErrorCode.invalid_encoding, "Invalid encoding"⟩ :=
  scnC7 (fun _ => codecvt_result.conv_incomplete) (fun _ => true) ['y']
    (fun w h => by simp at h)

/-- Witness for C2 at the limits of a 32-bit signed integer and a
floating-point stand-in with `fmax = 100`: saturation at `INT_MAX` is
overflow, at `INT_MIN` underflow, at `-100` float overflow, and the
failing value `7` is invalid for both. -/
theorem scnC2_witness :
    do_read_num (read_num_check_range_int ⟨-2147483648, 2147483647⟩) 10
        (.failed 2147483647) = .error overflow_error
    ∧ do_read_num (read_num_check_range_int ⟨-2147483648, 2147483647⟩) 10
        (.failed (-2147483648)) = .error underflow_error
    ∧ do_read_num (read_num_check_range_int ⟨-2147483648, 2147483647⟩) 10
        (.failed 7) = .error invalid_num_error
    ∧ do_read_num (read_num_check_range_float 100) 10
        (.failed (-100)) = .error overflow_error
    ∧ do_read_num (read_num_check_range_float 100) 10
        (.failed 0) = .error underflow_error
    ∧ do_read_num (read_num_check_range_float 100) 10
        (.failed 7) = .error invalid_num_error :=
  ⟨(scnC2 ⟨-2147483648, 2147483647⟩ 100 2147483647 10 (by decide) (by decide)).1 rfl,
   (scnC2 ⟨-2147483648, 2147483647⟩ 100 (-2147483648) 10 (by decide) (by decide)).2.1 rfl,
   (scnC2 ⟨-2147483648, 2147483647⟩ 100 7 10 (by decide) (by decide)).2.2.1
     (by decide) (by decide),
   (scnC2 ⟨-2147483648, 2147483647⟩ 100 (-100) 10 (by decide) (by decide)).2.2.2.1
     (Or.inr rfl),
   (scnC2 ⟨-2147483648, 2147483647⟩ 100 0 10 (by decide) (by decide)).2.2.2.2.1 rfl,
   (scnC2 ⟨-2147483648, 2147483647⟩ 100 7 10 (by decide) (by decide)).2.2.2.2.2
     (by decide) (by decide) (by decide)⟩

/-- C4: `getline` on a cursor whose remaining input splits as
`a ++ until_ :: b` with `until_ ∉ a`. With a view target on a contiguous
source, the view is bound directly over the underlying buffer — start
offset equal to the pre-read cursor position, length `a.length` — so it
covers exactly the prefix before the first delimiter, delimiter excluded,
with no copy (second conjunct: the bound window denotes `a`); the cursor
advances past the delimiter. With a view target on a non-contiguous
source the call fails with `invalid_operation`. With a string target the
prefix is accumulated by copy with the trailing delimiter trimmed, on
contiguous and non-contiguous sources alike. -/
theorem scnC4 (r : listWrapper Char) (until_ : Char) (a b : List Char)
    (hsplit : r.remaining = a ++ until_ :: b) (hna : until_ ∉ a) :
    getline_impl_sv true until_ r =
      .ok (⟨r.m_begin, a.length⟩, r.advance (a.length + 1))
    ∧ sview_content r.src ⟨r.m_begin, a.length⟩ = a
    ∧ getline_impl_sv false until_ r =
      .error ⟨ErrorCode.invalid_operation,
        "Cannot getline a string_view from a non-contiguous range"⟩
    ∧ getline_impl_str true until_ r =
      .ok (a, r.advance (a.length + 1))
    ∧ getline_impl_str false until_ r =
      .ok (a, r.advance (a.length + 1)) := by
  have hz := zero_copy_found until_ r a b hsplit hna
  have hsp : r.remaining.take (a.length + 1) = a ++ [until_] := by
    rw [hsplit, take_append_cons]
  have hlast : (a ++ [until_]).getLast? = some until_ := by simp
  refine ⟨?_, ?_, ?_, ?_, ?_⟩
  · unfold getline_impl_sv
    rw [hz]
    simp only [hsp, hlast, if_pos rfl]
    rw [if_pos (by omega)]
    simp
  · show (r.src.drop r.m_begin).take a.length = a
    have : r.src.drop r.m_begin = a ++ until_ :: b := hsplit
    rw [this, show a.length = (a : List Char).length from rfl,
      List.take_left]
  · unfold getline_impl_sv read_until_space_zero_copy
    rw [if_neg (by simp [hsplit])]
    simp
  · unfold getline_impl_str
    rw [hz]
    simp only [hsp, hlast, if_pos rfl]
    rw [if_pos (by omega)]
    simp [List.take_left]
  · unfold getline_impl_str read_until_space_zero_copy
    rw [if_neg (by simp [hsplit])]
    have hcopy : read_until_space_copy (fun ch => decide (ch = until_))
        true r = (a ++ [until_], r.advance (a.length + 1)) := by
      have htw := takeWhile_until_eq (a := a) (b := b) hna
      have hspan : span_consume (fun ch => decide (ch = until_)) true
          r.remaining = a.length + 1 := by
        simp only [span_consume, hsplit, htw, if_pos]
        rw [if_pos (by simp)]
      unfold read_until_space_copy
      rw [hspan]
      simp only [hsp]
    simp only [hcopy, hlast, if_pos rfl]
    simp

/-- Witness for C4 on the contiguous buffer `"foo\nbar"` with delimiter
`'\n'`: the view binds over offsets `[0, 3)` (the characters of `"foo"`),
the cursor is left at offset 4 (the `'b'`), the non-contiguous view
request fails with `invalid_operation`, and the string target receives
`"foo"` on both kinds of source. -/
theorem scnC4_witness :
    getline_impl_sv true '\n' ⟨['f', 'o', 'o', '\n', 'b', 'a', 'r'], 0, 0⟩ =
      .ok (⟨0, 3⟩, ⟨['f', 'o', 'o', '\n', 'b', 'a', 'r'], 4, 4⟩)
    ∧ sview_content ['f', 'o', 'o', '\n', 'b', 'a', 'r'] ⟨0, 3⟩ =
      ['f', 'o', 'o']
    ∧ getline_impl_sv false '\n' ⟨['f', 'o', 'o', '\n', 'b', 'a', 'r'], 0, 0⟩ =
      .error ⟨ErrorCode.invalid_operation,
        "Cannot getline a string_view from a non-contiguous range"⟩
    ∧ getline_impl_str true '\n' ⟨['f', 'o', 'o', '\n', 'b', 'a', 'r'], 0, 0⟩ =
      .ok (['f', 'o', 'o'], ⟨['f', 'o', 'o', '\n', 'b', 'a', 'r'], 4, 4⟩)
    ∧ getline_impl_str false '\n' ⟨['f', 'o', 'o', '\n', 'b', 'a', 'r'], 0, 0⟩ =
      .ok (['f', 'o', 'o'], ⟨['f', 'o', 'o', '\n', 'b', 'a', 'r'], 4, 4⟩) :=
  scnC4 ⟨['f', 'o', 'o', '\n', 'b', 'a', 'r'], 0, 0⟩ '\n'
    ['f', 'o', 'o'] ['b', 'a', 'r'] rfl (by decide)

/-- Counterexample to C5 as stated: `ignore_until` over `"ab;c"` with
delimiter `';'` succeeds having discarded `"ab"`, but the returned cursor
has consumed-count-since-checkpoint 2, not 0 — the rollback point was
not re-established after the discarded span — and a later
`reset_to_rollback_point` succeeds and undoes the discard, returning the
cursor to offset 0. -/
theorem scnC5_counterexample :
    ignore_until ';' ⟨['a', 'b', ';', 'c'], 0, 0⟩ =
      (Error.good, ⟨['a', 'b', ';', 'c'], 2, 2⟩)
    ∧ (⟨['a', 'b', ';', 'c'], 2, 2⟩ : listWrapper Char).m_read ≠ 0
    ∧ (⟨['a', 'b', ';', 'c'], 2, 2⟩ : listWrapper Char).reset_to_rollback_point =
      (Error.good, ⟨['a', 'b', ';', 'c'], 0, 0⟩) :=
  ⟨by decide, by decide, by decide⟩

/-- C5 (amended): a successful `ignore_until`/`ignore_until_n` (the
delimiter found after `a.length < n` discarded characters) leaves the
leftover input beginning at the delimiter, just past the discarded span
(third conjunct), but does NOT re-establish the rollback point: the
consumed-count equals the discarded length, and a later
`reset_to_rollback_point` succeeds and undoes the discard (fourth
conjunct). The engine resets to the rollback point only when the ignore
itself fails. -/
theorem scnC5 (src : List Char) (pos : Nat) (until_ : Char)
    (a b : List Char) (n : Nat)
    (hsplit : (⟨src, pos, 0⟩ : listWrapper Char).remaining = a ++ until_ :: b)
    (hna : until_ ∉ a) (hn : a.length < n) :
    ignore_until until_ ⟨src, pos, 0⟩ =
      (Error.good, ⟨src, pos + a.length, a.length⟩)
    ∧ ignore_until_n n until_ ⟨src, pos, 0⟩ =
      (Error.good, ⟨src, pos + a.length, a.length⟩)
    ∧ (⟨src, pos + a.length, a.length⟩ : listWrapper Char).remaining =
      until_ :: b
    ∧ (⟨src, pos + a.length, a.length⟩ : listWrapper Char).reset_to_rollback_point =
      (Error.good, ⟨src, pos, 0⟩) := by
  have htw := takeWhile_until_eq (a := a) (b := b) hna
  have hrem : src.drop pos = a ++ until_ :: b := hsplit
  have hlen : src.length - pos = a.length + b.length + 1 := by
    have := congrArg List.length hrem
    simpa using this
  have hadv : (⟨src, pos, 0⟩ : listWrapper Char).advance a.length =
      ⟨src, pos + a.length, a.length⟩ := by
    simp [listWrapper.advance]
  refine ⟨?_, ?_, ?_, ?_⟩
  · have himpl : ignore_until_impl until_ ⟨src, pos, 0⟩ =
        (Error.good, ⟨src, pos + a.length, a.length⟩) := by
      unfold ignore_until_impl read_until_space_ignore
      rw [if_neg (by simp [listWrapper.remaining, hrem])]
      simp only [listWrapper.remaining, hrem, htw]
      rw [if_neg (by simp only [List.length_append, List.length_cons]; omega)]
      simp [listWrapper.advance]
    unfold ignore_until
    rw [himpl]
    simp [Error.good]
  · have himpl : ignore_until_n_impl n until_ ⟨src, pos, 0⟩ =
        (Error.good, ⟨src, pos + a.length, a.length⟩) := by
      unfold ignore_until_n_impl
      rw [if_neg (by simp [listWrapper.remaining, hrem])]
      simp only [listWrapper.remaining, hrem, htw]
      rw [if_pos (by simp only [List.length_append, List.length_cons]; omega),
        Nat.min_eq_left (Nat.le_of_lt hn)]
      simp [listWrapper.advance]
    unfold ignore_until_n
    rw [himpl]
    simp [Error.good]
  · show src.drop (pos + a.length) = until_ :: b
    have h1 : src.drop (pos + a.length) = (src.drop pos).drop a.length := by
      rw [List.drop_drop]
    rw [h1, hrem, show a.length = (a : List Char).length from rfl,
      List.drop_left]
  · show (match list_reset_loop src.length (pos + a.length) a.length with
      | (e, p, k) => (e, (⟨src, p, k⟩ : listWrapper Char))) =
      (Error.good, ⟨src, pos, 0⟩)
    rw [list_reset_loop_ok src.length pos a.length (by omega)]

/-- Witness for C5 (amended) on `"ab;c"` with delimiter `';'` and bound
5: two characters are discarded, the leftover starts at `';'`, the
consumed count is 2 and the reset undoes the discard. -/
theorem scnC5_witness :
    ignore_until ';' ⟨['a', 'b', ';', 'c'], 0, 0⟩ =
      (Error.good, ⟨['a', 'b', ';', 'c'], 2, 2⟩)
    ∧ ignore_until_n 5 ';' ⟨['a', 'b', ';', 'c'], 0, 0⟩ =
      (Error.good, ⟨['a', 'b', ';', 'c'], 2, 2⟩)
    ∧ (⟨['a', 'b', ';', 'c'], 2, 2⟩ : listWrapper Char).remaining = [';', 'c']
    ∧ (⟨['a', 'b', ';', 'c'], 2, 2⟩ : listWrapper Char).reset_to_rollback_point =
      (Error.good, ⟨['a', 'b', ';', 'c'], 0, 0⟩) :=
  scnC5 ['a', 'b', ';', 'c'] 0 ';' ['a', 'b'] ['c'] 5 rfl (by decide)
    (by decide)

/-- C8: for every argument list and every starting state, driving the
engine with the explicit space-separated default format (`vscan_fmt` over
`default_format args.length`) is behaviourally indistinguishable from the
`scan_default` fast path (`vscan_default`): identical error, identical
final state — hence identical assigned values and identical leftover
input — for every whitespace-skipping and literal-matching collaborator
(the literal matcher is never even consulted). -/
theorem scnC8 {σ : Type} (skipWs : σ → σ) (matchLit : Char → σ → Error × σ)
    (args : List (σ → Error × σ)) (s : σ) :
    vscan_fmt skipWs matchLit args (default_format args.length) s =
      vscan_default skipWs args s := by
  induction args generalizing s with
  | nil => rfl
  | cons f rest ih =>
    cases rest with
    | nil =>
      show vscan_fmt skipWs matchLit [f] [FToken.placeholder] s =
        vscan_default skipWs [f] s
      simp only [vscan_fmt, vscan_default]
    | cons g rest2 =>
      show vscan_fmt skipWs matchLit (f :: g :: rest2)
          (FToken.placeholder :: FToken.ws ::
            default_format (rest2.length + 1)) s =
        vscan_default skipWs (f :: g :: rest2) s
      have hL : vscan_fmt skipWs matchLit (f :: g :: rest2)
          (FToken.placeholder :: FToken.ws ::
            default_format (rest2.length + 1)) s =
          (match f s with
           | (e, s1) =>
             if e.code ≠ ErrorCode.good then (e, s1)
             else vscan_fmt skipWs matchLit (g :: rest2)
               (default_format (rest2.length + 1)) (skipWs s1)) := by
        simp only [vscan_fmt]
      have hR : vscan_default skipWs (f :: g :: rest2) s =
          (match f s with
           | (e, s1) =>
             if e.code ≠ ErrorCode.good then (e, s1)
             else vscan_default skipWs (g :: rest2) (skipWs s1)) := by
        simp only [vscan_default]
      rw [hL, hR]
      rcases hf : f s with ⟨e, s1⟩
      simp only [hf]
      by_cases he : e.code = ErrorCode.good
      · simp only [he, ne_eq, not_true_eq_false, if_false, ite_false]
        exact ih (skipWs s1)
      · simp [he]

end ScnSpec
